import Mathlib

/-
Verification of the AZFP raw-file parser (echopype/convert/parse_azfp.py).

Shallow embedding conventions:
* machine integers from the byte stream are Nat (all values are unsigned);
* IEEE-754 doubles are idealized as exact rationals extended with the special
  values +inf, -inf and NaN (type FP below).  The arithmetic on FP follows the
  IEEE special-value rules that numpy implements (inf * 0 = nan, log10 0 = -inf,
  log10 of a negative number = nan, 0 / 0 = nan, x / 0 = +-inf, ...), while the
  finite-by-finite cases use exact rational arithmetic instead of rounded
  binary64 arithmetic;
* np.log10 / np.log have no computable exact counterpart on the rationals, so
  every definition that applies them is parametric in the function
  (f : Rat -> Rat) used on the strictly positive finite branch; the special
  values (0, negatives, infinities, NaN) are handled exactly.  Theorems either
  hold for every such f or instantiate f at a concrete function;
* Python byte strings are List Nat; file.read(n) returns up to n bytes
  (List.take); struct.unpack raises (modelled as Option.none) unless the chunk
  length matches the format size exactly.
-/

set_option maxRecDepth 10000

namespace AZFP

/-- Floating-point value model: exact rationals plus the IEEE special values. -/
inductive FP where
  | fin : ℚ → FP
  | pinf : FP
  | ninf : FP
  | nan : FP
deriving DecidableEq

def FP.neg : FP → FP
  | fin q => fin (-q)
  | pinf => ninf
  | ninf => pinf
  | nan => nan

def FP.add : FP → FP → FP
  | nan, _ => nan
  | _, nan => nan
  | pinf, ninf => nan
  | ninf, pinf => nan
  | pinf, _ => pinf
  | _, pinf => pinf
  | ninf, _ => ninf
  | _, ninf => ninf
  | fin a, fin b => fin (a + b)

def FP.sub (a b : FP) : FP := a.add b.neg

def FP.mul : FP → FP → FP
  | nan, _ => nan
  | _, nan => nan
  | pinf, pinf => pinf
  | pinf, ninf => ninf
  | ninf, pinf => ninf
  | ninf, ninf => pinf
  | pinf, fin q => if 0 < q then pinf else if q < 0 then ninf else nan
  | fin q, pinf => if 0 < q then pinf else if q < 0 then ninf else nan
  | ninf, fin q => if 0 < q then ninf else if q < 0 then pinf else nan
  | fin q, ninf => if 0 < q then ninf else if q < 0 then pinf else nan
  | fin a, fin b => fin (a * b)

def FP.div : FP → FP → FP
  | nan, _ => nan
  | _, nan => nan
  | pinf, pinf => nan
  | pinf, ninf => nan
  | ninf, pinf => nan
  | ninf, ninf => nan
  | pinf, fin q => if q < 0 then ninf else pinf
  | ninf, fin q => if q < 0 then pinf else ninf
  | fin _, pinf => fin 0
  | fin _, ninf => fin 0
  | fin a, fin b =>
      if b = 0 then (if a = 0 then nan else if 0 < a then pinf else ninf)
      else fin (a / b)

/-- np.log10 / np.log on the FP model; f is the exact stand-in for the
library logarithm on strictly positive finite arguments. -/
def FP.logWith (f : ℚ → ℚ) : FP → FP
  | nan => nan
  | pinf => pinf
  | ninf => nan
  | fin q => if q = 0 then ninf else if q < 0 then nan else fin (f q)

/-- np.isinf: true exactly on the two infinities (false on NaN). -/
def FP.isinf : FP → Bool
  | pinf => true
  | ninf => true
  | _ => false

/-- The clamp v[np.isinf v] = 0 applied to one element. -/
def FP.clamp0 (w : FP) : FP := if w.isinf then FP.fin 0 else w

/-- One bin of the data_type = 1 (averaged) decode, from _add_counts lines
395-404: v = (ls + lso * 4294967295) / divisor, then
v = (np.log10 v - 2.5) * (8 * 65535) * DS, then v[np.isinf v] = 0. -/
def avgBin (f : ℚ → ℚ) (s o : ℕ) (divisor : ℕ) (ds : ℚ) : FP :=
  FP.clamp0
    (FP.mul
      (FP.mul
        (FP.sub
          (FP.logWith f
            (FP.div (FP.fin ((s : ℚ) + (o : ℚ) * 4294967295)) (FP.fin (divisor : ℚ))))
          (FP.fin (5 / 2)))
        (FP.fin (8 * 65535)))
      (FP.fin ds))

/-- The averaged-channel decode of _add_counts: numpy elementwise arithmetic
over the linear-sum vector ls and the overflow vector lso (equal length). -/
def add_counts_avg (f : ℚ → ℚ) (ls lso : List ℕ) (divisor : ℕ) (ds : ℚ) : List FP :=
  (ls.zip lso).map fun p => avgBin f p.1 p.2 divisor ds

/-- Divisor selection of _add_counts lines 388-394: if the avg_pings header
flag is truthy, pings-per-profile times range-samples-per-bin, else
range-samples-per-bin alone. -/
def avgDivisor (avg_pings ping_per_profile rspb : ℕ) : ℕ :=
  if avg_pings ≠ 0 then ping_per_profile * rspb else rspb

/-- Written from the spec wording for one averaged bin, parametric in the
overflow weight c: reconstruct magnitude as sum + overflow * c, divide by the
divisor, apply (log10 (magnitude / divisor) - 2.5) * (8 * 65535) * DS, clamp
non-finite infinities to 0.  The spec claims c = 2 ^ 32. -/
def specBin (c : ℚ) (f : ℚ → ℚ) (s o : ℕ) (divisor : ℕ) (ds : ℚ) : FP :=
  FP.clamp0
    (FP.mul
      (FP.mul
        (FP.sub
          (FP.logWith f
            (FP.div (FP.fin ((s : ℚ) + (o : ℚ) * c)) (FP.fin (divisor : ℚ))))
          (FP.fin (5 / 2)))
        (FP.fin (8 * 65535)))
      (FP.fin ds))

/-- Written from the spec wording: the whole averaged vector, read as num_bins
sums followed by num_bins overflow counts, decoded bin by bin. -/
def specAvgDecode (c : ℚ) (f : ℚ → ℚ) : List ℕ → List ℕ → ℕ → ℚ → List FP
  | s :: ss, o :: os, d, ds => specBin c f s o d ds :: specAvgDecode c f ss os d ds
  | _, _, _, _ => []

/-- Written from the spec wording: divisor = pings-per-profile times
range-samples-per-bin when time-averaged, range-samples-per-bin alone
otherwise. -/
def specDivisor (timeAveraged : Bool) (ping_per_profile rspb : ℕ) : ℕ :=
  if timeAveraged then ping_per_profile * rspb else rspb

/-- Big-endian value of a byte list. -/
def beVal (bs : List ℕ) : ℕ := bs.foldl (fun a b => 256 * a + b) 0

/-- struct.unpack over a list of field byte-widths: consumes exactly the sum of
the widths, none (struct.error) on any length mismatch. -/
def unpackFields : List ℕ → List ℕ → Option (List ℕ)
  | [], chunk => if chunk = [] then some [] else none
  | w :: ws, chunk =>
      if chunk.length < w then none
      else
        match unpackFields ws (chunk.drop w) with
        | some vs => some (beVal (chunk.take w) :: vs)
        | none => none

def unpackU16s (n : ℕ) (chunk : List ℕ) : Option (List ℕ) :=
  unpackFields (List.replicate n 2) chunk

def unpackU32s (n : ℕ) (chunk : List ℕ) : Option (List ℕ) :=
  unpackFields (List.replicate n 4) chunk

def unpackU8s (n : ℕ) (chunk : List ℕ) : Option (List ℕ) :=
  unpackFields (List.replicate n 1) chunk

/-- Big-endian 16-bit encoding of a value list (test harness for the raw
channel round trip). -/
def encodeU16be (vs : List ℕ) : List ℕ :=
  (vs.map fun v => [v / 256, v % 256]).flatten

/-- Raw (data_type = 0) channel decode of _add_counts lines 405-408: read
num_bins * 2 bytes and unpack num_bins big-endian u16 values; returns the
values and the rest of the stream. -/
def readRawChannel (n : ℕ) (s : List ℕ) : Option (List ℕ × List ℕ) :=
  match unpackU16s n (s.take (n * 2)) with
  | some vs => some (vs, s.drop (n * 2))
  | none => none

/-- Instrument constants from ParseAZFP. -/
def HEADER_SIZE : ℕ := 124

def FILE_TYPE : ℕ := 64770

def HEADER_FORMAT : String :=
  ">HHHHIHHHHHHHHHHHHHHHHHHHHHHHHHHHHHBBBBHBBBBBBBBHHHHHHHHHHHHHHHHHHHH"

/-- struct format character sizes used in HEADER_FORMAT. -/
def fmtCharSize (c : Char) : Option ℕ :=
  if c = 'H' then some 2 else if c = 'I' then some 4 else if c = 'B' then some 1 else none

def formatSizes (fmt : String) : List ℕ := fmt.toList.filterMap fmtCharSize

def calcsize (fmt : String) : ℕ := (formatSizes fmt).sum

/-- One entry of the HEADER_FIELDS table: name, byte width of one slot
(u1 = 1, u2 = 2, u4 = 4), and the slot count for the 3-tuples (none for the
plain scalar 2-tuples). -/
structure HField where
  fname : String
  width : ℕ
  slots : Option ℕ
deriving DecidableEq

/-- The HEADER_FIELDS table of parse_azfp.py, in source order. -/
def HEADER_FIELDS : List HField :=
  [⟨"profile_flag", 2, none⟩, ⟨"profile_number", 2, none⟩, ⟨"serial_number", 2, none⟩,
   ⟨"ping_status", 2, none⟩, ⟨"burst_int", 4, none⟩, ⟨"year", 2, none⟩, ⟨"month", 2, none⟩,
   ⟨"day", 2, none⟩, ⟨"hour", 2, none⟩, ⟨"minute", 2, none⟩, ⟨"second", 2, none⟩,
   ⟨"hundredths", 2, none⟩, ⟨"dig_rate", 2, some 4⟩, ⟨"lockout_index", 2, some 4⟩,
   ⟨"num_bins", 2, some 4⟩, ⟨"range_samples_per_bin", 2, some 4⟩, ⟨"ping_per_profile", 2, none⟩,
   ⟨"avg_pings", 2, none⟩, ⟨"num_acq_pings", 2, none⟩, ⟨"ping_period", 2, none⟩,
   ⟨"first_ping", 2, none⟩, ⟨"last_ping", 2, none⟩, ⟨"data_type", 1, some 4⟩,
   ⟨"data_error", 2, none⟩, ⟨"phase", 1, none⟩, ⟨"overrun", 1, none⟩, ⟨"num_chan", 1, none⟩,
   ⟨"gain", 1, some 4⟩, ⟨"spare_chan", 1, none⟩, ⟨"pulse_length", 2, some 4⟩,
   ⟨"board_num", 2, some 4⟩, ⟨"frequency", 2, some 4⟩, ⟨"sensor_flag", 2, none⟩,
   ⟨"ancillary", 2, some 5⟩, ⟨"ad", 2, some 2⟩]

/-- Fields with num_freq data (_split_header lines 355-365, source order). -/
def field_w_freq : List String :=
  ["dig_rate", "lockout_index", "num_bins", "range_samples_per_bin", "data_type", "gain",
   "pulse_length", "board_num", "frequency"]

def firmware_freq_len : ℕ := 4

/-- One stored field of the _split_header walk: tuple-slot start, the number of
tuple slots stored for this ping (the Python slice length), and how many slots
the counter advances. -/
structure LayoutEntry where
  fname : String
  start : ℕ
  exposed : ℕ
  advance : ℕ
deriving DecidableEq

/-- The _split_header field walk (lines 366-379) over the unpacked tuple of
length L with channel count nf: frequency fields store nf slots but advance a
fixed 4 slots; ancillary and ad store and advance their own slot counts; plain
scalars store 1 and advance 1.  Returns the entries and the final counter. -/
def splitWalk (nf L : ℕ) : List LayoutEntry × ℕ :=
  HEADER_FIELDS.foldl
    (fun acc fld =>
      if fld.fname ∈ field_w_freq then
        (acc.1 ++ [⟨fld.fname, acc.2, min nf (L - acc.2), firmware_freq_len⟩],
         acc.2 + firmware_freq_len)
      else
        match fld.slots with
        | some k => (acc.1 ++ [⟨fld.fname, acc.2, min k (L - acc.2), k⟩], acc.2 + k)
        | none => (acc.1 ++ [⟨fld.fname, acc.2, min 1 (L - acc.2), 1⟩], acc.2 + 1))
    ([], 0)

/-- Tuple-slot index at which a header field starts (independent of the channel
count, since the walk always advances the fixed widths). -/
def fieldStart (name : String) : ℕ :=
  (((splitWalk 0 0).1.find? fun e => e.fname == name).map LayoutEntry.start).getD 0

/-- unpack(HEADER_FORMAT, chunk): the 67-value header tuple, none unless the
chunk is exactly 124 bytes. -/
def unpackHeader (chunk : List ℕ) : Option (List ℕ) :=
  unpackFields (formatSizes HEADER_FORMAT) chunk

/-- Scalar header field access: the unpacked tuple always has 67 entries when
unpackHeader succeeds, so a default never fires on the indices used. -/
def huScalar (hu : List ℕ) (name : String) : ℕ := hu.getD (fieldStart name) 0

/-- Frequency-shaped header field as stored by _split_header: the Python slice
header_unpacked[start : start + k]. -/
def huSlice (hu : List ℕ) (name : String) (k : ℕ) : List ℕ :=
  (hu.drop (fieldStart name)).take k

/-- The XML parameters consumed by the decoder (load_AZFP_xml output shape). -/
structure Params where
  num_freq : ℕ
  DS : List ℚ
  ka : ℚ
  kb : ℚ
  kc : ℚ
  A : ℚ
  B : ℚ
  C : ℚ

/-- np.isclose(x, 0) with the numpy defaults rtol = 1e-5, atol = 1e-8:
abs (x - 0) <= atol + rtol * abs 0 = 1e-8. -/
def np_isclose_zero (x : ℚ) : Bool := |x| ≤ 1 / 100000000

/-- _test_valid_params of parse_raw lines 231-235: false when every coefficient
is close to 0, true otherwise. -/
def test_valid_params (ps : List ℚ) : Bool := !(ps.all np_isclose_zero)

/-- _compute_temperature lines 150-175; lnf is the exact stand-in for np.log on
strictly positive finite arguments.  counts is ancillary[4]. -/
def compute_temperature (lnf : ℚ → ℚ) (P : Params) (counts : ℕ) (is_valid : Bool) : FP :=
  if !is_valid then FP.nan
  else
    let v_in : ℚ := 5 / 2 * ((counts : ℚ) / 65535)
    let R := FP.div (FP.fin (P.ka + P.kb * v_in)) (FP.fin (P.kc - v_in))
    let lnR := FP.logWith lnf R
    FP.sub
      (FP.div (FP.fin 1)
        (((FP.fin P.A).add ((FP.fin P.B).mul lnR)).add ((FP.fin P.C).mul (lnR.mul (lnR.mul lnR)))))
      (FP.fin 273)

/-- Per-channel sample payload: a raw channel keeps the unpacked integer tuple,
an averaged channel the float vector. -/
inductive ChannelData where
  | raw : List ℕ → ChannelData
  | avg : List FP → ChannelData
deriving DecidableEq

/-- The per-channel loop of _add_counts (lines 384-409) over the remaining
channel indices, threading the stream; none models a raised struct.error or
IndexError. -/
def add_counts_go (f : ℚ → ℚ) (P : Params) (hu : List ℕ) :
    List ℕ → List ℕ → Option (List ChannelData × List ℕ)
  | [], s => some ([], s)
  | ch :: chs, s =>
    match (huSlice hu "num_bins" P.num_freq)[ch]? with
    | none => none
    | some n =>
      match (huSlice hu "data_type" P.num_freq)[ch]? with
      | none => none
      | some dty =>
        if dty ≠ 0 then
          match (huSlice hu "range_samples_per_bin" P.num_freq)[ch]?, P.DS[ch]? with
          | some rspb, some ds =>
            let divisor := avgDivisor (huScalar hu "avg_pings") (huScalar hu "ping_per_profile") rspb
            match unpackU32s n (s.take (n * 4)) with
            | none => none
            | some ls =>
              let s2 := s.drop (n * 4)
              match unpackU8s n (s2.take n) with
              | none => none
              | some lso =>
                match add_counts_go f P hu chs (s2.drop n) with
                | none => none
                | some (rest, s3) =>
                    some (ChannelData.avg (add_counts_avg f ls lso divisor ds) :: rest, s3)
          | _, _ => none
        else
          match readRawChannel n s with
          | none => none
          | some (vs, s2) =>
            match add_counts_go f P hu chs s2 with
            | none => none
            | some (rest, s3) => some (ChannelData.raw vs :: rest, s3)

/-- _add_counts: decode one channel payload per freq_ch in range(num_chan). -/
def add_counts (f : ℚ → ℚ) (P : Params) (hu : List ℕ) (s : List ℕ) :
    Option (List ChannelData × List ℕ) :=
  add_counts_go f P hu (List.range (huScalar hu "num_chan")) s

/-- How one parse run terminates. -/
inductive StopKind where
  | endOfStream
  | unrecognizedFrame
  | fatalStructError
deriving DecidableEq

/-- One accumulated ping: the 67-value header tuple, the decoded sample block,
and the derived temperature (the other derived per-ping values carry no
control flow and are omitted from the model). -/
structure Ping where
  header : List ℕ
  counts : List ChannelData
  temperature : FP
deriving DecidableEq

structure ParseResult where
  pings : List Ping
  stop : StopKind
deriving DecidableEq

/-- The magic-constant gate at the top of _split_header (lines 342-348), as
written in the source: on a mismatch read one byte; only a non-empty read makes
the method return False.  Returns the success flag and the stream after the
probe read. -/
def split_header_gate (hu0 : ℕ) (s : List ℕ) : Bool × List ℕ :=
  if hu0 ≠ FILE_TYPE then
    if s.take 1 ≠ [] then (false, s.drop 1) else (true, s.drop 1)
  else (true, s)

/-- The while-loop of parse_raw (lines 241-294), fuel-indexed: read 124 bytes;
an empty read is end of file; unpack the header; run the _split_header gate;
on success decode the sample block, append the ping and loop. -/
def parse_loop (f lnf : ℚ → ℚ) (P : Params) (tvalid : Bool) :
    ℕ → List ℕ → List Ping → ParseResult
  | 0, _, acc => ⟨acc, StopKind.fatalStructError⟩
  | fuel + 1, s, acc =>
    let chunk := s.take HEADER_SIZE
    if chunk = [] then ⟨acc, StopKind.endOfStream⟩
    else
      match unpackHeader chunk with
      | none => ⟨acc, StopKind.fatalStructError⟩
      | some hu =>
        let g := split_header_gate (hu.getD 0 0) (s.drop HEADER_SIZE)
        if g.1 then
          match add_counts f P hu g.2 with
          | none => ⟨acc, StopKind.fatalStructError⟩
          | some (cnts, s2) =>
            let temp := compute_temperature lnf P ((huSlice hu "ancillary" 5).getD 4 0) tvalid
            parse_loop f lnf P tvalid fuel s2 (acc ++ [⟨hu, cnts, temp⟩])
        else ⟨acc, StopKind.unrecognizedFrame⟩

/-- parse_raw over a byte stream.  Each loop iteration consumes at least one
byte, so length + 1 units of fuel always reach a genuine stop. -/
def parse_raw (f lnf : ℚ → ℚ) (P : Params) (s : List ℕ) : ParseResult :=
  parse_loop f lnf P (test_valid_params [P.ka, P.kb, P.kc]) (s.length + 1) s []

/-- Parameters used for the concrete parse runs: 4 channels, unit DS, all
calibration coefficients zero. -/
def P0 : Params := ⟨4, [1, 1, 1, 1], 0, 0, 0, 0, 0, 0⟩

/-- A single 124-byte frame whose first field is 65534 (not the magic 64770)
and after which the stream ends; the date fields hold 2020-01-02 so that the
_print_status side call on ping 0 would not itself raise. -/
def c2Input : List ℕ :=
  [255, 254, 0, 0, 0, 0, 0, 0, 0, 0, 0, 0, 7, 228, 0, 1, 0, 2] ++ List.replicate 106 0

/-- A valid frame: magic 64770 (0xFD02), num_chan = 0 (no payload), date
2020-01-02. -/
def c9ValidFrame : List ℕ :=
  [253, 2, 0, 0, 0, 0, 0, 0, 0, 0, 0, 0, 7, 228, 0, 1, 0, 2] ++ List.replicate 106 0

/-- The valid frame followed by a 124-byte frame whose first field is 1 (not
the magic) with nothing after it. -/
def c9Input : List ℕ := c9ValidFrame ++ ([0, 1] ++ List.replicate 122 0)

/-- The accumulated per-ping lists that _check_uniqueness examines: one entry
per ping, frequency-shaped fields are the stored header slices. -/
structure UnpackedData where
  dig_rate : List (List ℕ)
  lockout_index : List (List ℕ)
  num_bins : List (List ℕ)
  range_samples_per_bin : List (List ℕ)
  data_type : List (List ℕ)
  gain : List (List ℕ)
  pulse_length : List (List ℕ)
  board_num : List (List ℕ)
  frequency : List (List ℕ)
  profile_flag : List ℕ
  serial_number : List ℕ
  burst_int : List ℕ
  ping_per_profile : List ℕ
  avg_pings : List ℕ
  ping_period : List ℕ
  phase : List ℕ
  num_chan : List ℕ
  spare_chan : List ℕ
deriving DecidableEq

/-- A field after the reducer: either left as the per-ping list or collapsed
(np.unique + squeeze) to its single distinct value. -/
inductive Red (α : Type) where
  | kept : List α → Red α
  | collapsed : α → Red α
deriving DecidableEq

structure ReducedData where
  dig_rate : Red (List ℕ)
  lockout_index : Red (List ℕ)
  num_bins : Red (List ℕ)
  range_samples_per_bin : Red (List ℕ)
  data_type : Red (List ℕ)
  gain : Red (List ℕ)
  pulse_length : Red (List ℕ)
  board_num : Red (List ℕ)
  frequency : Red (List ℕ)
  profile_flag : Red ℕ
  serial_number : Red ℕ
  burst_int : Red ℕ
  ping_per_profile : Red ℕ
  avg_pings : Red ℕ
  ping_period : Red ℕ
  phase : Red ℕ
  num_chan : Red ℕ
  spare_chan : Red ℕ
deriving DecidableEq

/-- One field of the reducer body (lines 441-452): np.unique yields exactly one
distinct value (dedup has the same count and, in the singleton case, the same
value) to collapse, otherwise raise ValueError naming the field. -/
def reduceField {α : Type} [DecidableEq α] (name : String) (vals : List α) :
    Except String (Red α) :=
  match vals.dedup with
  | [v] => Except.ok (Red.collapsed v)
  | _ => Except.error ("Header value " ++ name ++ " is not constant for each ping")

/-- The identity outcome when the size-1 guard skips the body. -/
def keptAll (d : UnpackedData) : ReducedData :=
  ⟨Red.kept d.dig_rate, Red.kept d.lockout_index, Red.kept d.num_bins,
   Red.kept d.range_samples_per_bin, Red.kept d.data_type, Red.kept d.gain,
   Red.kept d.pulse_length, Red.kept d.board_num, Red.kept d.frequency,
   Red.kept d.profile_flag, Red.kept d.serial_number, Red.kept d.burst_int,
   Red.kept d.ping_per_profile, Red.kept d.avg_pings, Red.kept d.ping_period,
   Red.kept d.phase, Red.kept d.num_chan, Red.kept d.spare_chan⟩

/-- _check_uniqueness (lines 411-452): the body runs only when the number of
accumulated profile_flag records differs from 1, reduces the nine
frequency-shaped fields then the nine scalar fields in source order, and the
first inconsistent field raises. -/
def check_uniqueness (d : UnpackedData) : Except String ReducedData :=
  if d.profile_flag.length = 1 then Except.ok (keptAll d)
  else
    (reduceField "dig_rate" d.dig_rate).bind fun a1 =>
    (reduceField "lockout_index" d.lockout_index).bind fun a2 =>
    (reduceField "num_bins" d.num_bins).bind fun a3 =>
    (reduceField "range_samples_per_bin" d.range_samples_per_bin).bind fun a4 =>
    (reduceField "data_type" d.data_type).bind fun a5 =>
    (reduceField "gain" d.gain).bind fun a6 =>
    (reduceField "pulse_length" d.pulse_length).bind fun a7 =>
    (reduceField "board_num" d.board_num).bind fun a8 =>
    (reduceField "frequency" d.frequency).bind fun a9 =>
    (reduceField "profile_flag" d.profile_flag).bind fun b1 =>
    (reduceField "serial_number" d.serial_number).bind fun b2 =>
    (reduceField "burst_int" d.burst_int).bind fun b3 =>
    (reduceField "ping_per_profile" d.ping_per_profile).bind fun b4 =>
    (reduceField "avg_pings" d.avg_pings).bind fun b5 =>
    (reduceField "ping_period" d.ping_period).bind fun b6 =>
    (reduceField "phase" d.phase).bind fun b7 =>
    (reduceField "num_chan" d.num_chan).bind fun b8 =>
    (reduceField "spare_chan" d.spare_chan).bind fun b9 =>
    Except.ok ⟨a1, a2, a3, a4, a5, a6, a7, a8, a9, b1, b2, b3, b4, b5, b6, b7, b8, b9⟩

/-- The 18 checked values of a single ping, used to build datasets whose pings
all agree. -/
structure PingFields where
  dig_rate : List ℕ
  lockout_index : List ℕ
  num_bins : List ℕ
  range_samples_per_bin : List ℕ
  data_type : List ℕ
  gain : List ℕ
  pulse_length : List ℕ
  board_num : List ℕ
  frequency : List ℕ
  profile_flag : ℕ
  serial_number : ℕ
  burst_int : ℕ
  ping_per_profile : ℕ
  avg_pings : ℕ
  ping_period : ℕ
  phase : ℕ
  num_chan : ℕ
  spare_chan : ℕ

/-- n pings that all carry the same field values. -/
def replicateData (n : ℕ) (t : PingFields) : UnpackedData :=
  ⟨List.replicate n t.dig_rate, List.replicate n t.lockout_index, List.replicate n t.num_bins,
   List.replicate n t.range_samples_per_bin, List.replicate n t.data_type,
   List.replicate n t.gain, List.replicate n t.pulse_length, List.replicate n t.board_num,
   List.replicate n t.frequency, List.replicate n t.profile_flag,
   List.replicate n t.serial_number, List.replicate n t.burst_int,
   List.replicate n t.ping_per_profile, List.replicate n t.avg_pings,
   List.replicate n t.ping_period, List.replicate n t.phase, List.replicate n t.num_chan,
   List.replicate n t.spare_chan⟩

/-- Every field collapsed to the common value. -/
def collapsedAll (t : PingFields) : ReducedData :=
  ⟨Red.collapsed t.dig_rate, Red.collapsed t.lockout_index, Red.collapsed t.num_bins,
   Red.collapsed t.range_samples_per_bin, Red.collapsed t.data_type, Red.collapsed t.gain,
   Red.collapsed t.pulse_length, Red.collapsed t.board_num, Red.collapsed t.frequency,
   Red.collapsed t.profile_flag, Red.collapsed t.serial_number, Red.collapsed t.burst_int,
   Red.collapsed t.ping_per_profile, Red.collapsed t.avg_pings, Red.collapsed t.ping_period,
   Red.collapsed t.phase, Red.collapsed t.num_chan, Red.collapsed t.spare_chan⟩

/-- Two pings agreeing on everything except serial_number. -/
def serMismatchData (t : PingFields) (s1 s2 : ℕ) : UnpackedData :=
  { replicateData 2 t with serial_number := [s1, s2] }

/-- One assembled ping timestamp (the datetime handed to np.datetime64 at
millisecond resolution); the seconds argument of dt is
int(second + hundredths / 100), i.e. the floor since the operand is
non-negative. -/
structure PingTimeRec where
  year : ℕ
  month : ℕ
  day : ℕ
  hour : ℕ
  minute : ℕ
  second : ℤ
deriving DecidableEq

/-- The per-ping body of _get_ping_time (lines 461-477). -/
def get_ping_time_entry (year month day hour minute second hundredths : ℕ) : PingTimeRec :=
  ⟨year, month, day, hour, minute, ⌊(second : ℚ) + (hundredths : ℚ) / 100⌋⟩

/-- _get_ping_time over the accumulated header time fields. -/
def get_ping_time (hdrs : List (ℕ × ℕ × ℕ × ℕ × ℕ × ℕ × ℕ)) : List PingTimeRec :=
  hdrs.map fun h =>
    get_ping_time_entry h.1 h.2.1 h.2.2.1 h.2.2.2.1 h.2.2.2.2.1 h.2.2.2.2.2.1 h.2.2.2.2.2.2

/-- Concrete one-ping dataset used for the uniqueness-reducer evaluations. -/
def d10 : UnpackedData :=
  ⟨[[1]], [[2]], [[3]], [[4]], [[1]], [[5]], [[6]], [[7]], [[8]],
   [9], [5], [10], [11], [0], [12], [1], [1], [0]⟩

/-- Concrete per-ping field values used for the reducer witnesses. -/
def t3 : PingFields :=
  ⟨[1], [2], [3], [4], [1], [5], [6], [7], [8], 9, 5, 10, 11, 0, 12, 1, 1, 0⟩

/-- Parameters with the temperature coefficient triple exactly zero. -/
def P8 : Params := ⟨0, [], 0, 0, 0, 1, 1, 1⟩

/- ------------------------------------------------------------------ -/
/- Helper lemmas                                                       -/
/- ------------------------------------------------------------------ -/

lemma fp_div_fin {a b : ℚ} (hb : b ≠ 0) : FP.div (FP.fin a) (FP.fin b) = FP.fin (a / b) := by
  simp [FP.div, hb]

lemma fp_log_pos (f : ℚ → ℚ) {q : ℚ} (hq : 0 < q) : FP.logWith f (FP.fin q) = FP.fin (f q) := by
  simp only [FP.logWith]
  rw [if_neg hq.ne', if_neg (lt_asymm hq)]

lemma fp_sub_fin (a b : ℚ) : FP.sub (FP.fin a) (FP.fin b) = FP.fin (a - b) := by
  show FP.fin (a + -b) = FP.fin (a - b)
  rw [← sub_eq_add_neg]

lemma fp_mul_fin (a b : ℚ) : FP.mul (FP.fin a) (FP.fin b) = FP.fin (a * b) := rfl

lemma fp_clamp0_fin (a : ℚ) : FP.clamp0 (FP.fin a) = FP.fin a := rfl

lemma fp_clamp0_cases (w : FP) : FP.clamp0 w ≠ FP.pinf ∧ FP.clamp0 w ≠ FP.ninf := by
  cases w <;> simp [FP.clamp0, FP.isinf]

lemma avgBin_not_inf (f : ℚ → ℚ) (s o d : ℕ) (ds : ℚ) :
    avgBin f s o d ds ≠ FP.pinf ∧ avgBin f s o d ds ≠ FP.ninf := by
  unfold avgBin
  exact fp_clamp0_cases _

lemma avgBin_eval (f : ℚ → ℚ) (s o d : ℕ) (ds : ℚ) (hd : ((d : ℚ)) ≠ 0)
    (hm : 0 < ((s : ℚ) + (o : ℚ) * 4294967295) / (d : ℚ)) :
    avgBin f s o d ds
      = FP.fin ((f (((s : ℚ) + (o : ℚ) * 4294967295) / (d : ℚ)) - 5 / 2) * (8 * 65535) * ds) := by
  unfold avgBin
  rw [fp_div_fin hd, fp_log_pos f hm, fp_sub_fin, fp_mul_fin, fp_mul_fin, fp_clamp0_fin]

lemma specBin_eval (c : ℚ) (f : ℚ → ℚ) (s o d : ℕ) (ds : ℚ) (hd : ((d : ℚ)) ≠ 0)
    (hm : 0 < ((s : ℚ) + (o : ℚ) * c) / (d : ℚ)) :
    specBin c f s o d ds
      = FP.fin ((f (((s : ℚ) + (o : ℚ) * c) / (d : ℚ)) - 5 / 2) * (8 * 65535) * ds) := by
  unfold specBin
  rw [fp_div_fin hd, fp_log_pos f hm, fp_sub_fin, fp_mul_fin, fp_mul_fin, fp_clamp0_fin]

lemma encodeU16be_cons (v : ℕ) (vs : List ℕ) :
    encodeU16be (v :: vs) = v / 256 :: v % 256 :: encodeU16be vs := rfl

lemma encodeU16be_length (vs : List ℕ) : (encodeU16be vs).length = vs.length * 2 := by
  induction vs with
  | nil => rfl
  | cons v vs ih => simp [encodeU16be_cons, ih]; omega

lemma unpackU16s_encode (vs : List ℕ) (hb : ∀ v ∈ vs, v < 65536) :
    unpackU16s vs.length (encodeU16be vs) = some vs := by
  induction vs with
  | nil => rfl
  | cons v vs ih =>
    have ih2 := ih fun w hw => hb w (List.mem_cons_of_mem v hw)
    unfold unpackU16s at ih2 ⊢
    rw [show (v :: vs).length = vs.length + 1 from rfl, List.replicate_succ, encodeU16be_cons]
    simp only [unpackFields]
    rw [if_neg (by simp)]
    rw [show (v / 256 :: v % 256 :: encodeU16be vs).drop 2 = encodeU16be vs from rfl]
    rw [show (v / 256 :: v % 256 :: encodeU16be vs).take 2 = [v / 256, v % 256] from rfl]
    rw [ih2]
    have hbe : beVal [v / 256, v % 256] = v := by
      show 256 * (256 * 0 + v / 256) + v % 256 = v
      omega
    simp [hbe]

lemma dedup_replicate {α : Type} [DecidableEq α] (a : α) (n : ℕ) (h : n ≠ 0) :
    (List.replicate n a).dedup = [a] := by
  induction n with
  | zero => exact absurd rfl h
  | succ m ih =>
    cases Nat.eq_zero_or_pos m with
    | inl h0 => subst h0; simp
    | inr hpos =>
      rw [List.replicate_succ,
        List.dedup_cons_of_mem (List.mem_replicate.mpr ⟨Nat.pos_iff_ne_zero.mp hpos, rfl⟩)]
      exact ih (Nat.pos_iff_ne_zero.mp hpos)

lemma int_floor_nat_div_100 (h : ℕ) : ⌊(h : ℚ) / 100⌋ = (h / 100 : ℕ) := by
  rw [show (100 : ℚ) = ((100 : ℕ) : ℚ) by norm_num,
    ← Int.natCast_floor_eq_floor (by positivity), Nat.floor_div_eq_div]

/- ------------------------------------------------------------------ -/
/- Claim theorems                                                      -/
/- ------------------------------------------------------------------ -/

/-- C1 counterexample: the code reconstructs the linear magnitude with weight
4294967295 = 2 ^ 32 - 1 on the overflow count, not 2 ^ 32 as the claim states.
At sum = 0, overflow = 1, divisor = 1, DS = 1 (positive-branch logarithm
instantiated at the identity, which is injective like log10) the code vector
and the claimed vector differ. -/
theorem C1_counterexample :
    add_counts_avg id [0] [1] 1 1 ≠ specAvgDecode 4294967296 id [0] [1] 1 1
  ∧ add_counts_avg id [0] [1] 1 1 = [FP.fin ((4294967295 - 5 / 2) * (8 * 65535) * 1)]
  ∧ specAvgDecode 4294967296 id [0] [1] 1 1
      = [FP.fin ((4294967296 - 5 / 2) * (8 * 65535) * 1)] := by
  have h1 : add_counts_avg id [0] [1] 1 1 = [FP.fin ((4294967295 - 5 / 2) * (8 * 65535) * 1)] := by
    show [avgBin id 0 1 1 1] = _
    rw [avgBin_eval id 0 1 1 1 (by norm_num) (by norm_num)]
    norm_num
  have h2 : specAvgDecode 4294967296 id [0] [1] 1 1
      = [FP.fin ((4294967296 - 5 / 2) * (8 * 65535) * 1)] := by
    show [specBin 4294967296 id 0 1 1 1] = _
    rw [specBin_eval 4294967296 id 0 1 1 1 (by norm_num) (by norm_num)]
    norm_num
  refine ⟨?_, h1, h2⟩
  rw [h1, h2]
  simp only [ne_eq, List.cons.injEq, FP.fin.injEq, and_true]
  norm_num

/-- C1 amended: for every channel with data_type flag 1 the decoded vector is
the spec formula with the linear magnitude reconstructed as
sum + overflow * (2 ^ 32 - 1) = sum + overflow * 4294967295 (rather than
sum + overflow * 2 ^ 32), with the divisor chosen by the avg_pings flag exactly
as the claim states, for every positive-branch logarithm f. -/
theorem C1_amended_decode (f : ℚ → ℚ) (ls lso : List ℕ) (ap ppp rspb : ℕ) (ds : ℚ) :
    add_counts_avg f ls lso (avgDivisor ap ppp rspb) ds
      = specAvgDecode 4294967295 f ls lso (specDivisor (ap != 0) ppp rspb) ds := by
  have hdiv : specDivisor (ap != 0) ppp rspb = avgDivisor ap ppp rspb := by
    simp [avgDivisor, specDivisor, bne_iff_ne]
  rw [hdiv]
  generalize avgDivisor ap ppp rspb = d
  induction ls generalizing lso with
  | nil => cases lso <;> rfl
  | cons a as ih =>
    cases lso with
    | nil => rfl
    | cons b bs =>
      show avgBin f a b d ds :: add_counts_avg f as bs d ds
        = specBin 4294967295 f a b d ds :: specAvgDecode 4294967295 f as bs d ds
      rw [ih bs]
      rfl

/-- C4 counterexample: a bin with sum = 0 and overflow = 0 does not always
decode to 0 and not every non-finite value is replaced: with divisor 1 and
DS = 0 the log-compression produces ninf * 0 = NaN, np.isinf is false on NaN,
and the decoded vector is [NaN], a non-finite value different from 0. -/
theorem C4_counterexample :
    add_counts_avg id [0] [0] 1 0 = [FP.nan] ∧ FP.nan ≠ FP.fin 0 := by
  constructor
  · show [avgBin id 0 0 1 0] = [FP.nan]
    unfold avgBin
    rw [show FP.div (FP.fin (((0 : ℕ) : ℚ) + ((0 : ℕ) : ℚ) * 4294967295))
          (FP.fin ((1 : ℕ) : ℚ)) = FP.fin 0 from by rw [fp_div_fin (by norm_num)]; norm_num]
    rw [show FP.logWith id (FP.fin 0) = FP.ninf from by simp [FP.logWith]]
    rw [show FP.sub FP.ninf (FP.fin (5 / 2)) = FP.ninf from rfl]
    rw [show FP.mul FP.ninf (FP.fin (8 * 65535)) = FP.ninf from by norm_num [FP.mul]]
    rw [show FP.mul FP.ninf (FP.fin 0) = FP.nan from by norm_num [FP.mul]]
    rfl
  · decide

/-- C4 amended: the clamp removes exactly the infinities (no decoded value is
+inf or -inf, while NaN survives), and a bin with sum = 0 and overflow = 0
decodes to exactly 0 provided the divisor and the DS calibration value of the
channel are nonzero. -/
theorem C4_amended :
    (∀ (f : ℚ → ℚ) (ls lso : List ℕ) (d : ℕ) (ds : ℚ) (x : FP),
        x ∈ add_counts_avg f ls lso d ds → x ≠ FP.pinf ∧ x ≠ FP.ninf)
  ∧ (∀ (f : ℚ → ℚ) (d : ℕ) (ds : ℚ), d ≠ 0 → ds ≠ 0 → avgBin f 0 0 d ds = FP.fin 0) := by
  constructor
  · intro f ls lso d ds x hx
    simp only [add_counts_avg, List.mem_map] at hx
    obtain ⟨p, _, rfl⟩ := hx
    exact avgBin_not_inf f p.1 p.2 d ds
  · intro f d ds hd hds
    have hdq : ((d : ℚ)) ≠ 0 := Nat.cast_ne_zero.mpr hd
    unfold avgBin
    rw [show FP.div (FP.fin (((0 : ℕ) : ℚ) + ((0 : ℕ) : ℚ) * 4294967295)) (FP.fin (d : ℚ))
          = FP.fin 0 from by rw [fp_div_fin hdq]; norm_num]
    rw [show FP.logWith f (FP.fin 0) = FP.ninf from by simp [FP.logWith]]
    rw [show FP.sub FP.ninf (FP.fin (5 / 2)) = FP.ninf from rfl]
    rw [show FP.mul FP.ninf (FP.fin (8 * 65535)) = FP.ninf from by norm_num [FP.mul]]
    rcases lt_or_gt_of_ne hds with h | h
    · rw [show FP.mul FP.ninf (FP.fin ds) = FP.pinf from by simp [FP.mul, h, lt_asymm h]]
      rfl
    · rw [show FP.mul FP.ninf (FP.fin ds) = FP.ninf from by simp [FP.mul, h]]
      rfl

/-- C4 witness: at divisor 3 and DS = 1 the zero bin decodes to exactly 0, and
that value is neither +inf nor -inf. -/
theorem C4_witness :
    avgBin id 0 0 3 1 = FP.fin 0
  ∧ (FP.fin 0 ≠ FP.pinf ∧ FP.fin 0 ≠ FP.ninf) :=
  ⟨C4_amended.2 id 3 1 (by decide) (by norm_num),
   C4_amended.1 id [0] [0] 3 1 (FP.fin 0)
     (by show FP.fin 0 ∈ [avgBin id 0 0 3 1]
         rw [C4_amended.2 id 3 1 (by decide) (by norm_num)]
         exact List.mem_singleton.mpr rfl)⟩

/-- C2: the code slip.  On the 124-byte stream c2Input, whose first 2-byte
field is 65534 (not the magic 64770) and which has zero bytes remaining after
that first read, the one-byte end-of-stream probe comes back empty; because the
early return False sits inside the non-empty-probe branch, _split_header falls
through, the garbage frame is decoded as a ping, and the run terminates at end
of stream with 1 ping — not, as the claim (and the comment at parse_raw line
249 plus the _split_header docstring) require, an unrecognized-frame stop with
0 pings. -/
theorem C2_code_eval :
    (parse_raw id id P0 c2Input).pings.length = 1
  ∧ (parse_raw id id P0 c2Input).stop = StopKind.endOfStream
  ∧ (parse_raw id id P0 c2Input).stop ≠ StopKind.unrecognizedFrame :=
  ⟨by decide, by decide, by decide⟩

/-- C3 counterexample: a dataset holding exactly one ping with
serial_number = [5].  The reducer's size-1 guard skips the body entirely, so
serial_number stays the one-element per-ping list and is not collapsed to the
scalar 5, contradicting the claim for this dataset in which all pings
(trivially) share one serial_number value. -/
theorem C3_counterexample :
    check_uniqueness d10 = Except.ok (keptAll d10)
  ∧ (keptAll d10).serial_number = Red.kept [5]
  ∧ Red.kept [5] ≠ Red.collapsed (5 : ℕ) :=
  ⟨rfl, rfl, by decide⟩

/-- C3 amended: for datasets of at least two pings the claim holds: if every
checked field carries one identical value across all pings, each is collapsed
to that single value; if two pings carry differing serial_number values (all
other fields agreeing), the reducer fails with the configuration-inconsistency
error naming serial_number, and no reduced dataset is returned. -/
theorem C3_amended :
    (∀ (n : ℕ) (t : PingFields), 2 ≤ n →
        check_uniqueness (replicateData n t) = Except.ok (collapsedAll t))
  ∧ (∀ (t : PingFields) (s1 s2 : ℕ), s1 ≠ s2 →
        check_uniqueness (serMismatchData t s1 s2)
          = Except.error "Header value serial_number is not constant for each ping") := by
  constructor
  · intro n t hn
    have hne : n ≠ 0 := by omega
    unfold check_uniqueness
    rw [if_neg (by simp [replicateData]; omega)]
    simp [replicateData, reduceField, dedup_replicate _ n hne, Except.bind, collapsedAll]
  · intro t s1 s2 hs
    have hser : ([s1, s2] : List ℕ).dedup = [s1, s2] := by
      rw [List.dedup_cons_of_not_mem (by simp [hs])]
      simp
    unfold check_uniqueness
    rw [if_neg (by simp [serMismatchData, replicateData])]
    simp [serMismatchData, replicateData, reduceField, dedup_replicate, hser, Except.bind]

/-- C3 witness: three identical pings collapse every field; two pings differing
only in serial_number raise the error naming serial_number. -/
theorem C3_witness :
    check_uniqueness (replicateData 3 t3) = Except.ok (collapsedAll t3)
  ∧ check_uniqueness (serMismatchData t3 5 6)
      = Except.error "Header value serial_number is not constant for each ping" :=
  ⟨C3_amended.1 3 t3 (by omega), C3_amended.2 t3 5 6 (by decide)⟩

/-- C5: for every ping the seconds component of the assembled timestamp is the
integer truncation of second + hundredths / 100, so sub-second detail from the
hundredths field below one whole second is dropped; at
(2020, 1, 2, 3, 4, second 5, hundredths 60) the seconds value is exactly 5. -/
theorem C5_ping_time :
    (∀ year month day hour minute second hundredths : ℕ,
        (get_ping_time_entry year month day hour minute second hundredths).second
          = (second : ℤ) + ((hundredths / 100 : ℕ) : ℤ))
  ∧ (get_ping_time_entry 2020 1 2 3 4 5 60).second = 5 := by
  have main : ∀ year month day hour minute second hundredths : ℕ,
      (get_ping_time_entry year month day hour minute second hundredths).second
        = (second : ℤ) + ((hundredths / 100 : ℕ) : ℤ) := by
    intro y mo d hh mi s hund
    show ⌊(s : ℚ) + (hund : ℚ) / 100⌋ = (s : ℤ) + ((hund / 100 : ℕ) : ℤ)
    rw [Int.floor_nat_add, int_floor_nat_div_100]
  exact ⟨main, by simpa using main 2020 1 2 3 4 5 60⟩

/-- C6: the header format describes exactly 124 = HEADER_SIZE bytes (as does
the HEADER_FIELDS table, and the two agree slot by slot), the _split_header
walk consumes every one of the 67 unpacked tuple slots, and each of the nine
frequency-dependent fields always advances a fixed 4-slot frame while the
stored record exposes exactly the first channel-count slots. -/
theorem C6_header_layout :
    calcsize HEADER_FORMAT = HEADER_SIZE
  ∧ (HEADER_FIELDS.map fun fl => fl.width * fl.slots.getD 1).sum = HEADER_SIZE
  ∧ (HEADER_FIELDS.map fun fl => List.replicate (fl.slots.getD 1) fl.width).flatten
      = formatSizes HEADER_FORMAT
  ∧ (splitWalk 0 (formatSizes HEADER_FORMAT).length).2 = (formatSizes HEADER_FORMAT).length
  ∧ ∀ nf : ℕ, nf ≤ 4 →
      ∀ e ∈ (splitWalk nf (formatSizes HEADER_FORMAT).length).1,
        e.fname ∈ field_w_freq → e.advance = 4 ∧ e.exposed = nf := by
  refine ⟨by decide, by decide, by decide, by decide, ?_⟩
  intro nf hnf
  interval_cases nf <;> decide

/-- C6 witness: the frequency-field layout at the concrete channel count 2. -/
theorem C6_witness :
    ∀ e ∈ (splitWalk 2 (formatSizes HEADER_FORMAT).length).1,
      e.fname ∈ field_w_freq → e.advance = 4 ∧ e.exposed = 2 :=
  C6_header_layout.2.2.2.2 2 (by decide)

/-- C7: for a channel with data_type = 0 the decode is the identity on the
big-endian u16 input values: decoding num_bins values from their encoding
returns exactly those values (so the vector length is num_bins) and leaves the
rest of the stream; a channel with num_bins = 0 yields the empty vector with no
error. -/
theorem C7_raw_identity :
    (∀ (vs rest : List ℕ), (∀ v ∈ vs, v < 65536) →
        readRawChannel vs.length (encodeU16be vs ++ rest) = some (vs, rest))
  ∧ (∀ s : List ℕ, readRawChannel 0 s = some ([], s)) := by
  constructor
  · intro vs rest hb
    unfold readRawChannel
    have htk : (encodeU16be vs ++ rest).take (vs.length * 2) = encodeU16be vs := by
      rw [← encodeU16be_length vs]
      exact List.take_left (encodeU16be vs) rest
    have hdr : (encodeU16be vs ++ rest).drop (vs.length * 2) = rest := by
      rw [← encodeU16be_length vs]
      exact List.drop_left (encodeU16be vs) rest
    rw [htk, hdr, unpackU16s_encode vs hb]
  · intro s
    rfl

/-- C7 witness: the concrete channel [1, 2, 3]. -/
theorem C7_witness :
    readRawChannel ([1, 2, 3] : List ℕ).length (encodeU16be [1, 2, 3] ++ [9])
      = some ([1, 2, 3], [9]) :=
  C7_raw_identity.1 [1, 2, 3] [9] (by decide)

/-- C8: when ka, kb and kc are all within the np.isclose tolerance of 0, the
validity flag computed once per parse is false and _compute_temperature returns
NaN for every ping and every ancillary count, raising nothing. -/
theorem C8_invalid_temp (lnf : ℚ → ℚ) (P : Params) (counts : ℕ)
    (h1 : np_isclose_zero P.ka = true) (h2 : np_isclose_zero P.kb = true)
    (h3 : np_isclose_zero P.kc = true) :
    test_valid_params [P.ka, P.kb, P.kc] = false
  ∧ compute_temperature lnf P counts (test_valid_params [P.ka, P.kb, P.kc]) = FP.nan := by
  have hv : test_valid_params [P.ka, P.kb, P.kc] = false := by
    simp [test_valid_params, h1, h2, h3]
  refine ⟨hv, ?_⟩
  rw [hv]
  rfl

/-- C8 witness: the all-zero coefficient triple of P8. -/
theorem C8_witness :
    test_valid_params [P8.ka, P8.kb, P8.kc] = false
  ∧ compute_temperature id P8 7 (test_valid_params [P8.ka, P8.kb, P8.kc]) = FP.nan :=
  C8_invalid_temp id P8 7 (by norm_num [np_isclose_zero, P8])
    (by norm_num [np_isclose_zero, P8]) (by norm_num [np_isclose_zero, P8])

/-- C9: the code slip, mid-stream.  On c9Input (one valid no-payload frame
followed by a 124-byte frame whose marker is 1, with nothing after it) the
driver does not stop at the invalid marker: the empty end-of-stream probe makes
_split_header fall through, the garbage frame is appended as a second ping, and
the run ends at end of stream with 2 pings instead of stopping at the
unrecognized frame with the 1 valid ping.  The previously accumulated ping does
remain unchanged (third conjunct), but the claimed Stopped(UnrecognizedFrame)
transition never happens. -/
theorem C9_code_eval :
    (parse_raw id id P0 c9Input).pings.length = 2
  ∧ (parse_raw id id P0 c9Input).stop = StopKind.endOfStream
  ∧ ((parse_raw id id P0 c9Input).pings.map Ping.header).take 1
      = (parse_raw id id P0 c9ValidFrame).pings.map Ping.header :=
  ⟨by decide, by decide, by decide⟩

/-- C10: when the accumulated dataset holds exactly one ping (one profile_flag
record), the uniqueness pass leaves every field unchanged: no field is
collapsed and no consistency check runs. -/
theorem C10_single_ping (d : UnpackedData) (h : d.profile_flag.length = 1) :
    check_uniqueness d = Except.ok (keptAll d) := by
  unfold check_uniqueness
  rw [if_pos h]

/-- C10 witness: the concrete one-ping dataset d10. -/
theorem C10_witness : check_uniqueness d10 = Except.ok (keptAll d10) :=
  C10_single_ping d10 (by decide)

end AZFP
